import Mathlib

/-!
Verification of the CSV-to-SQLite loader (`src/ingest_data.py`) and the
query runner (`src/analytics_queries.py`).

Python strings are embedded as lists of characters (`PyStr`); the CSV
loader's helper functions are translated one-to-one from the source.
The SQLite connection used by `load_csv_to_sqlite` is modelled with the
transaction semantics of Python's `sqlite3` module under its default
(legacy) transaction control: a transaction is implicitly opened before
a DML statement (INSERT) when none is open; DDL statements (DROP TABLE,
CREATE TABLE) execute inside the open transaction when one is open and
in autocommit mode otherwise (since Python 3.6, DDL no longer implicitly
commits); `commit` publishes all pending changes and `rollback` discards
all pending changes since the transaction began.
-/

set_option maxRecDepth 20000

namespace Ingest

/-- A Python string, embedded as its list of characters. -/
abbrev PyStr := List Char

/-- ASCII whitespace stripped by Python's `int(str)` / `float(str)`. -/
def pySpace (c : Char) : Bool :=
  c = ' ' || c = '\t' || c = '\n' || c = '\x0d' || c = '\x0b' || c = '\x0c'

/-- Strip leading and trailing whitespace, as `int()`/`float()` do. -/
def stripWS (s : PyStr) : PyStr :=
  ((s.dropWhile pySpace).reverse.dropWhile pySpace).reverse

/-- Continuation of a digit run: digits, with single underscores allowed
between digits (Python numeric-literal underscore rule). -/
def digitsRest : PyStr → Bool
  | [] => true
  | '_' :: c :: rest => c.isDigit && digitsRest rest
  | c :: rest => c.isDigit && digitsRest rest

/-- A nonempty digit run with single underscores allowed between digits. -/
def digitsUnd : PyStr → Bool
  | [] => false
  | c :: rest => c.isDigit && digitsRest rest

/-- Does `int(s)` succeed on this string?  Python accepts optional
whitespace, an optional sign, and a nonempty digit run (underscores
between digits allowed); a decimal point is rejected. -/
def py_int_ok (s : PyStr) : Bool :=
  match stripWS s with
  | '+' :: rest => digitsUnd rest
  | '-' :: rest => digitsUnd rest
  | rest => digitsUnd rest

/-- Mantissa of a float literal: `digits`, `digits.`, `digits.digits`,
or `.digits`. -/
def mantissaOk (s : PyStr) : Bool :=
  match s.splitOn '.' with
  | [a] => digitsUnd a
  | [a, b] => (digitsUnd a && (b.isEmpty || digitsUnd b)) || (a.isEmpty && digitsUnd b)
  | _ => false

/-- Exponent tail of a float literal: optional sign then digits. -/
def expTailOk (s : PyStr) : Bool :=
  match s with
  | '+' :: rest => digitsUnd rest
  | '-' :: rest => digitsUnd rest
  | rest => digitsUnd rest

/-- Body of a float literal after the optional sign: `inf`, `infinity`,
`nan` (case-insensitive), or a mantissa with an optional exponent. -/
def floatBody (s : PyStr) : Bool :=
  let low := s.map Char.toLower
  if low = "inf".data || low = "infinity".data || low = "nan".data then true
  else
    match s.findIdx? (fun c => c = 'e' || c = 'E') with
    | none => mantissaOk s
    | some i => mantissaOk (s.take i) && expTailOk (s.drop (i + 1))

/-- Does `float(s)` succeed on this string? -/
def py_float_ok (s : PyStr) : Bool :=
  match stripWS s with
  | '+' :: rest => floatBody rest
  | '-' :: rest => floatBody rest
  | rest => floatBody rest

/-- Translation of `infer_column_type` (src/ingest_data.py:21-53): drop
falsy (empty) values; if nothing remains return TEXT; if `int` succeeds
on every remaining value return INTEGER; else if `float` succeeds on
every remaining value return REAL; else TEXT. -/
def infer_column_type (values : List PyStr) : PyStr :=
  let values := values.filter (fun v => !v.isEmpty)
  if values.isEmpty then "TEXT".data
  else if values.all py_int_ok then "INTEGER".data
  else if values.all py_float_ok then "REAL".data
  else "TEXT".data

/-- The primary-key heuristic of `create_table_from_csv`
(src/ingest_data.py:86): `col.endswith('_id') and
col.startswith(table_name[:-1])`. -/
def pk_heuristic (table_name col : PyStr) : Bool :=
  "_id".data.isSuffixOf col && table_name.dropLast.isPrefixOf col

/-- One column clause of the CREATE TABLE statement built by
`create_table_from_csv` (src/ingest_data.py:85-89): the column name and
its type, with ` PRIMARY KEY` appended when the heuristic matches. -/
def column_def (table_name col sql_type : PyStr) : PyStr :=
  if pk_heuristic table_name col
  then col ++ " ".data ++ sql_type ++ " PRIMARY KEY".data
  else col ++ " ".data ++ sql_type

/-- One CSV data row: the ordered string fields produced by the CSV
reader. -/
abbrev Row := List PyStr

/-- The sampling loop of `create_table_from_csv` (src/ingest_data.py:74-77):
`for i, row in enumerate(reader): sample_rows.append(row); if i >= 100: break`.
The append precedes the bound check, so row index 100 (the 101st data
row) is still appended before the loop stops. -/
def sampleLoop : Nat → List Row → List Row
  | _, [] => []
  | i, r :: rs => r :: (if i ≥ 100 then [] else sampleLoop (i + 1) rs)

/-- The per-column sample of `create_table_from_csv`
(src/ingest_data.py:82): `[row[i] for row in sample_rows if i < len(row)]`.
`List.get?` returns `some` exactly when the guard `i < len(row)` holds,
so a row shorter than `i + 1` fields is skipped. -/
def sample_values (i : Nat) (sample_rows : List Row) : List PyStr :=
  sample_rows.filterMap (fun row => row[i]?)

/-- The type inferred for column `i` of a file whose data rows (header
excluded) are `rows`, per src/ingest_data.py:74-83. -/
def inferred_column_type (rows : List Row) (i : Nat) : PyStr :=
  infer_column_type (sample_values i (sampleLoop 0 rows))

/-- A value held in a `csv.DictReader` row: a field string, or `None`
when the row was too short for this column (`restval`). -/
abbrev Val := Option PyStr

/-- A `csv.DictReader` row: a mapping from column name to value,
embedded as an association list in the dict's iteration order. -/
abbrev DictRow := List (PyStr × Val)

/-- Dictionary lookup `row[col]`: the value of the first entry whose key
equals `col`, or `none` when the key is absent (Python would raise
`KeyError`; `DictReader` rows always carry every header key). -/
def dict_get (d : DictRow) (col : PyStr) : Option Val :=
  (d.find? (fun p => p.1 == col)).map Prod.snd

/-- The reordering step of `load_csv_to_sqlite` (src/ingest_data.py:165):
`[row[col] for col in headers]` — one value per header column, in
header order. -/
def row_values (headers : List PyStr) (d : DictRow) : List (Option Val) :=
  headers.map (fun col => dict_get d col)

/-- Key lookup in an association list whose keys are distinct does not
depend on entry order: `find?` over two permuted lists agrees. -/
theorem find?_perm_nodup_keys {d d' : DictRow} (hp : d.Perm d')
    (hn : (d.map Prod.fst).Nodup) (k : PyStr) :
    d.find? (fun p => p.1 == k) = d'.find? (fun p => p.1 == k) := by
  cases h : d.find? (fun p => p.1 == k) with
  | none =>
    rw [List.find?_eq_none] at h
    symm
    rw [List.find?_eq_none]
    intro x hx
    exact h x (hp.mem_iff.mpr hx)
  | some a =>
    have ha : a ∈ d := List.mem_of_find?_eq_some h
    have hpa : (a.1 == k) = true := by
      have := List.find?_some h
      simpa using this
    have hsome : (d'.find? (fun p => p.1 == k)).isSome := by
      rw [List.find?_isSome]
      exact ⟨a, hp.mem_iff.mp ha, hpa⟩
    cases h' : d'.find? (fun p => p.1 == k) with
    | none => rw [h'] at hsome; simp at hsome
    | some b =>
      have hb : b ∈ d := hp.mem_iff.mpr (List.mem_of_find?_eq_some h')
      have hpb : (b.1 == k) = true := by
        have := List.find?_some h'
        simpa using this
      have hab : a = b := by
        apply List.inj_on_of_nodup_map hn ha hb
        rw [eq_of_beq hpa, eq_of_beq hpb]
      rw [hab]

/-- C2 counterexample: for the sample consisting of one empty value,
every value remaining after the exclusion of empty values (there are
none) parses as an integer, yet `infer_column_type` returns TEXT, not
INTEGER — the claim's first "if and only if" fails on samples that are
empty after filtering. -/
theorem c2_empty_sample_counterexample :
    (([([] : PyStr)].filter (fun v => !v.isEmpty)).all py_int_ok = true) ∧
    infer_column_type [([] : PyStr)] = "TEXT".data ∧
    "TEXT".data ≠ "INTEGER".data := by decide

/-- C2 (amended): after excluding empty values, `infer_column_type`
returns INTEGER iff the remaining sample is nonempty and every remaining
value parses as an integer; otherwise REAL iff the remaining sample is
nonempty and every remaining value parses as a float; otherwise TEXT
(in particular when nothing remains).  The samples `["1", "2.5"]` and
`["1", "x"]` yield REAL and TEXT respectively. -/
theorem c2_infer_column_type_cases :
    ∀ values : List PyStr,
      (infer_column_type values = "INTEGER".data ↔
        values.filter (fun v => !v.isEmpty) ≠ [] ∧
        (values.filter (fun v => !v.isEmpty)).all py_int_ok = true) ∧
      (infer_column_type values = "REAL".data ↔
        values.filter (fun v => !v.isEmpty) ≠ [] ∧
        (values.filter (fun v => !v.isEmpty)).all py_int_ok = false ∧
        (values.filter (fun v => !v.isEmpty)).all py_float_ok = true) ∧
      (infer_column_type values = "TEXT".data ↔
        (values.filter (fun v => !v.isEmpty) = [] ∨
         ((values.filter (fun v => !v.isEmpty)).all py_int_ok = false ∧
          (values.filter (fun v => !v.isEmpty)).all py_float_ok = false))) ∧
      infer_column_type ["1".data, "2.5".data] = "REAL".data ∧
      infer_column_type ["1".data, "x".data] = "TEXT".data := by
  intro values
  refine ⟨?_, ?_, ?_, by decide, by decide⟩ <;>
  · by_cases h1 : (values.filter (fun v => !v.isEmpty)).isEmpty
    · have h1' : values.filter (fun v => !v.isEmpty) = [] := by simpa using h1
      simp [infer_column_type, h1, h1']
    · have h1' : values.filter (fun v => !v.isEmpty) ≠ [] := by simpa using h1
      by_cases h2 : (values.filter (fun v => !v.isEmpty)).all py_int_ok
      · simp [infer_column_type, h1, h1', h2]
      · by_cases h3 : (values.filter (fun v => !v.isEmpty)).all py_float_ok
        · simp [infer_column_type, h1, h1', h2, h3, Bool.eq_false_iff]
        · simp [infer_column_type, h1, h1', h2, h3, Bool.eq_false_iff]

/-- C3: a column clause carries PRIMARY KEY exactly when the column name
ends in `_id` and the table name with its trailing character removed is
a prefix of the column name; table `products` with column `product_id`
is marked, while table `categories` (naïve singular `categorie`) with
column `category_id` is not. -/
theorem c3_primary_key_heuristic :
    (∀ (t c ty : PyStr),
      (column_def t c ty = c ++ " ".data ++ ty ++ " PRIMARY KEY".data ↔
        ("_id".data <:+ c ∧ t.dropLast <+: c)) ∧
      (column_def t c ty = c ++ " ".data ++ ty ↔
        ¬("_id".data <:+ c ∧ t.dropLast <+: c))) ∧
    column_def "products".data "product_id".data "INTEGER".data =
      "product_id INTEGER PRIMARY KEY".data ∧
    column_def "categories".data "category_id".data "INTEGER".data =
      "category_id INTEGER".data := by
  refine ⟨?_, by decide, by decide⟩
  intro t c ty
  have hne : c ++ " ".data ++ ty ++ " PRIMARY KEY".data ≠ c ++ " ".data ++ ty := by
    intro h
    have := congrArg List.length h
    simp [List.length_append] at this
  by_cases h : pk_heuristic t c
  · have hprop : "_id".data <:+ c ∧ t.dropLast <+: c := by
      have hh := h
      simp only [pk_heuristic, Bool.and_eq_true, List.isSuffixOf_iff_suffix,
        List.isPrefixOf_iff_prefix] at hh
      exact hh
    simp [column_def, h, hprop, hne]
  · have hprop : ¬("_id".data <:+ c ∧ t.dropLast <+: c) := by
      simp only [pk_heuristic, Bool.and_eq_true, List.isSuffixOf_iff_suffix,
        List.isPrefixOf_iff_prefix] at h
      exact h
    simp [column_def, h, hprop, Ne.symm hne]

/-- A ragged data file: 100 rows whose single field is `"1"`, then a
101st row whose single field is `"x"`. -/
def rowsWithStray : List Row := List.replicate 100 [['1']] ++ [[['x']]]

/-- A data file of exactly 100 rows whose single field is `"1"`. -/
def rowsAllInt : List Row := List.replicate 100 [['1']]

/-- C5: the two files agree on their first 100 data rows, yet the
sampling loop (append before the `i >= 100` check) also reads row 101,
so their inferred column types differ — the code samples 101 rows while
its own comment and the claim say the first 100 rows determine the
type. -/
theorem c5_sampling_off_by_one :
    rowsWithStray.take 100 = rowsAllInt.take 100 ∧
    inferred_column_type rowsAllInt 0 = "INTEGER".data ∧
    inferred_column_type rowsWithStray 0 = "TEXT".data := by decide

/-- C6: `infer_column_type` gives the same answer on a sample and on the
sample with empty values discarded, and any sample that is empty after
discarding (e.g. all-empty columns) infers to TEXT. -/
theorem c6_empty_values_discarded :
    ∀ values : List PyStr,
      infer_column_type values = infer_column_type (values.filter (fun v => !v.isEmpty)) ∧
      ((values.filter (fun v => !v.isEmpty)).isEmpty → infer_column_type values = "TEXT".data) := by
  intro values
  constructor
  · simp [infer_column_type, List.filter_filter]
  · intro h
    simp [infer_column_type, h]

/-- C6 witness: a sample of two empty values infers to TEXT. -/
theorem c6_empty_values_discarded_witness :
    infer_column_type [([] : PyStr), ([] : PyStr)] = "TEXT".data :=
  (c6_empty_values_discarded [([] : PyStr), ([] : PyStr)]).2 (by decide)

/-- C7: insertion rows are arranged by the header order fixed at table
creation: the result is invariant under reordering of the dict's
entries (given distinct keys), has exactly one value per header column,
and its j-th entry is the value bound to the j-th header. -/
theorem c7_row_values_follow_header_order :
    ∀ (headers : List PyStr) (d d' : DictRow),
      d.Perm d' → (d.map Prod.fst).Nodup →
      row_values headers d = row_values headers d' ∧
      (row_values headers d).length = headers.length ∧
      ∀ j : Nat, (row_values headers d)[j]? = (headers[j]?).map (dict_get d) := by
  intro headers d d' hp hn
  refine ⟨?_, ?_, ?_⟩
  · have hcol : ∀ col, dict_get d col = dict_get d' col := by
      intro col
      simp [dict_get, find?_perm_nodup_keys hp hn col]
    simp [row_values, hcol]
  · simp [row_values]
  · intro j
    simp [row_values, List.getElem?_map]

/-- C7 witness: a two-column row yields the same insertion tuple whether
its dict iterates `name` before `qty` or the other way round. -/
theorem c7_row_values_follow_header_order_witness :
    row_values ["name".data, "qty".data]
        [("name".data, some "ann".data), ("qty".data, some "3".data)] =
      row_values ["name".data, "qty".data]
        [("qty".data, some "3".data), ("name".data, some "ann".data)] :=
  (c7_row_values_follow_header_order ["name".data, "qty".data]
    [("name".data, some "ann".data), ("qty".data, some "3".data)]
    [("qty".data, some "3".data), ("name".data, some "ann".data)]
    (List.Perm.swap ("qty".data, some "3".data) ("name".data, some "ann".data) [])
    (by decide)).1

/-- C10: a data row with at most `i` fields contributes nothing to the
sample for column `i` — removing it from anywhere in the sampled rows
leaves the sample unchanged, and on its own it yields an empty sample;
the guarded indexing never reads out of bounds. -/
theorem c10_short_rows_skipped :
    ∀ (i : Nat) (pre post : List Row) (r : Row),
      r.length ≤ i →
      sample_values i (pre ++ r :: post) = sample_values i (pre ++ post) ∧
      sample_values i [r] = [] := by
  intro i pre post r h
  have hr : r[i]? = none := List.getElem?_eq_none_iff.mpr h
  constructor
  · simp [sample_values, List.filterMap_append, List.filterMap_cons, hr]
  · simp [sample_values, List.filterMap_cons, hr]

/-- C10 witness: a one-field row is skipped by the sample for column 1. -/
theorem c10_short_rows_skipped_witness :
    sample_values 1 [[['a'], ['b']], [['z']], [['c'], ['d']]] =
      sample_values 1 [[['a'], ['b']], [['c'], ['d']]] ∧
    sample_values 1 [[['z']]] = [] :=
  c10_short_rows_skipped 1 [[['a'], ['b']]] [[['c'], ['d']]] [['z']] (by decide)

end Ingest

namespace Analytics
open Ingest (PyStr)

def strLt : PyStr → PyStr → Bool
  | [], [] => false
  | [], _ :: _ => true
  | _ :: _, [] => false
  | a :: s, b :: t => a < b || (a == b && strLt s t)

theorem strLt_irrefl : ∀ a : PyStr, strLt a a = false := by
  intro a
  induction a with
  | nil => rfl
  | cons x s ih => simp [strLt, ih]

theorem strLt_trans : ∀ (a b c : PyStr),
    strLt a b = true → strLt b c = true → strLt a c = true := by
  intro a
  induction a with
  | nil =>
    intro b c hab hbc
    cases b with
    | nil => simp [strLt] at hab
    | cons y t =>
      cases c with
      | nil => simp [strLt] at hbc
      | cons z u => rfl
  | cons x s ih =>
    intro b c hab hbc
    cases b with
    | nil => simp [strLt] at hab
    | cons y t =>
      cases c with
      | nil => simp [strLt] at hbc
      | cons z u =>
        simp only [strLt, Bool.or_eq_true, Bool.and_eq_true, beq_iff_eq,
          decide_eq_true_eq] at hab hbc ⊢
        rcases hab with h1 | ⟨rfl, h1⟩
        · rcases hbc with h2 | ⟨rfl, h2⟩
          · exact Or.inl (lt_trans h1 h2)
          · exact Or.inl h1
        · rcases hbc with h2 | ⟨rfl, h2⟩
          · exact Or.inl h2
          · exact Or.inr ⟨rfl, ih t u h1 h2⟩

theorem strLt_connex : ∀ (a b : PyStr),
    strLt a b = false → strLt b a = false → a = b := by
  intro a
  induction a with
  | nil =>
    intro b hab _
    cases b with
    | nil => rfl
    | cons y t => simp [strLt] at hab
  | cons x s ih =>
    intro b hab hba
    cases b with
    | nil => simp [strLt] at hba
    | cons y t =>
      simp only [strLt, Bool.or_eq_false_iff, Bool.and_eq_false_iff,
        decide_eq_false_iff_not, beq_iff_eq, beq_eq_false_iff_ne] at hab hba
      have hxy : x = y := by
        rcases hab with ⟨h1, _⟩
        rcases hba with ⟨h2, _⟩
        exact le_antisymm (le_of_not_lt h2) (le_of_not_lt h1)
      subst hxy
      rcases hab with ⟨-, h1 | h1⟩
      · exact absurd rfl h1
      · rcases hba with ⟨-, h2 | h2⟩
        · exact absurd rfl h2
        · rw [ih t h1 h2]


structure UserRow where
  user_id : Int
  name : PyStr
  email : PyStr
  city : PyStr
  state : PyStr

structure OrderRow where
  order_id : Int
  user_id : Int
  order_date : PyStr
  total_amount : PyStr
  status : PyStr

structure OrderItemRow where
  order_item_id : Int
  order_id : Int
  product_id : Int
  quantity : PyStr
  price : PyStr

structure ProductRow where
  product_id : Int
  name : PyStr
  category : PyStr

structure PaymentRow where
  payment_id : Int
  order_id : Int
  payment_method : PyStr
  payment_date : PyStr
  status : PyStr

structure QueryDB where
  users : List UserRow
  orders : List OrderRow
  order_items : List OrderItemRow
  products : List ProductRow
  payments : List PaymentRow

abbrev JoinedRow := OrderRow × UserRow × OrderItemRow × ProductRow

abbrev ResultRow := JoinedRow × Option PaymentRow

def inner_joined (db : QueryDB) : List JoinedRow :=
  db.orders.flatMap fun o =>
    (db.users.filter (fun u => u.user_id == o.user_id)).flatMap fun u =>
      (db.order_items.filter (fun oi => oi.order_id == o.order_id)).flatMap fun oi =>
        (db.products.filter (fun pr => pr.product_id == oi.product_id)).map fun pr =>
          (o, u, oi, pr)

def with_payments (db : QueryDB) (ts : List JoinedRow) : List ResultRow :=
  ts.flatMap fun t =>
    let ms := db.payments.filter (fun p => p.order_id == t.1.order_id)
    if ms.isEmpty then [(t, none)] else ms.map fun p => (t, some p)

def result_le (x y : ResultRow) : Bool :=
  if strLt y.1.1.order_date x.1.1.order_date then true
  else if strLt x.1.1.order_date y.1.1.order_date then false
  else if x.1.1.order_id < y.1.1.order_id then true
  else if y.1.1.order_id < x.1.1.order_id then false
  else x.1.2.2.1.order_item_id <= y.1.2.2.1.order_item_id

def result_order (x y : ResultRow) : Prop :=
  strLt y.1.1.order_date x.1.1.order_date = true \/
  (x.1.1.order_date = y.1.1.order_date /\
    (x.1.1.order_id < y.1.1.order_id \/
      (x.1.1.order_id = y.1.1.order_id /\
        x.1.2.2.1.order_item_id <= y.1.2.2.1.order_item_id)))

theorem result_le_iff : forall (x y : ResultRow),
    result_le x y = true <-> result_order x y := by
  intro x y
  by_cases h1 : strLt y.1.1.order_date x.1.1.order_date = true
  · simp [result_le, result_order, h1]
  · have h1' : strLt y.1.1.order_date x.1.1.order_date = false := by
      simpa using h1
    by_cases h2 : strLt x.1.1.order_date y.1.1.order_date = true
    · have hne : x.1.1.order_date ≠ y.1.1.order_date := by
        intro he
        rw [he] at h2
        rw [strLt_irrefl] at h2
        exact Bool.false_ne_true h2
      simp [result_le, result_order, h1', h2, hne]
    · have h2' : strLt x.1.1.order_date y.1.1.order_date = false := by
        simpa using h2
      have he : x.1.1.order_date = y.1.1.order_date := strLt_connex _ _ h2' h1'
      by_cases h3 : x.1.1.order_id < y.1.1.order_id
      · simp [result_le, result_order, h1', h2', h3, he]
      · by_cases h4 : y.1.1.order_id < x.1.1.order_id
        · have hne : x.1.1.order_id ≠ y.1.1.order_id := by omega
          simp [result_le, result_order, h1', h2', h3, h4, he, hne]
        · have heq : x.1.1.order_id = y.1.1.order_id := by omega
          simp [result_le, result_order, h1', h2', h3, h4, he, heq, strLt_irrefl]

theorem result_order_trans : forall (x y z : ResultRow),
    result_order x y -> result_order y z -> result_order x z := by
  intro x y z hxy hyz
  rcases hxy with h1 | ⟨he1, h1⟩
  · rcases hyz with h2 | ⟨he2, h2⟩
    · exact Or.inl (strLt_trans _ _ _ h2 h1)
    · exact Or.inl (he2 ▸ h1)
  · rcases hyz with h2 | ⟨he2, h2⟩
    · exact Or.inl (by rw [he1]; exact h2)
    · refine Or.inr ⟨he1.trans he2, ?_⟩
      rcases h1 with h1 | ⟨hq1, h1⟩ <;> rcases h2 with h2 | ⟨hq2, h2⟩
      · exact Or.inl (by omega)
      · exact Or.inl (by omega)
      · exact Or.inl (by omega)
      · exact Or.inr ⟨by omega, by omega⟩

theorem result_order_total : forall (x y : ResultRow),
    result_order x y \/ result_order y x := by
  intro x y
  by_cases h1 : strLt y.1.1.order_date x.1.1.order_date = true
  · exact Or.inl (Or.inl h1)
  · by_cases h2 : strLt x.1.1.order_date y.1.1.order_date = true
    · exact Or.inr (Or.inl h2)
    · have h1' : strLt y.1.1.order_date x.1.1.order_date = false := by simpa using h1
      have h2' : strLt x.1.1.order_date y.1.1.order_date = false := by simpa using h2
      have he : x.1.1.order_date = y.1.1.order_date := strLt_connex _ _ h2' h1'
      by_cases h3 : x.1.1.order_id < y.1.1.order_id
      · exact Or.inl (Or.inr ⟨he, Or.inl h3⟩)
      · by_cases h4 : y.1.1.order_id < x.1.1.order_id
        · exact Or.inr (Or.inr ⟨he.symm, Or.inl h4⟩)
        · by_cases h5 : x.1.2.2.1.order_item_id <= y.1.2.2.1.order_item_id
          · exact Or.inl (Or.inr ⟨he, Or.inr ⟨by omega, h5⟩⟩)
          · exact Or.inr (Or.inr ⟨he.symm, Or.inr ⟨by omega, by omega⟩⟩)

theorem result_le_trans : forall (x y z : ResultRow),
    result_le x y = true -> result_le y z = true -> result_le x z = true := by
  intro x y z hxy hyz
  rw [result_le_iff] at hxy hyz ⊢
  exact result_order_trans x y z hxy hyz

theorem result_le_total : forall (x y : ResultRow),
    (result_le x y || result_le y x) = true := by
  intro x y
  rw [Bool.or_eq_true, result_le_iff, result_le_iff]
  have := result_order_total x y
  tauto

def run_query (db : QueryDB) : List ResultRow :=
  ((with_payments db (inner_joined db)).mergeSort result_le).take 50

/-- C8: for every database state, the fixed join query returns at most
50 rows, sorted by order date descending then order id then line-item
id ascending, where every returned row joins an order with its user,
line item and product by the inner-join conditions and carries either a
matching payment or none when the order has no payment (outer join). -/
theorem c8_query_bounded_sorted_joined :
    ∀ db : QueryDB,
      (run_query db).length ≤ 50 ∧
      (run_query db).Pairwise result_order ∧
      (∀ r ∈ run_query db,
        r.1.1 ∈ db.orders ∧
        r.1.2.1 ∈ db.users ∧ r.1.1.user_id = r.1.2.1.user_id ∧
        r.1.2.2.1 ∈ db.order_items ∧ r.1.2.2.1.order_id = r.1.1.order_id ∧
        r.1.2.2.2 ∈ db.products ∧ r.1.2.2.2.product_id = r.1.2.2.1.product_id ∧
        (match r.2 with
         | some p => p ∈ db.payments ∧ p.order_id = r.1.1.order_id
         | none => ∀ p ∈ db.payments, p.order_id ≠ r.1.1.order_id)) := by
  intro db
  refine ⟨?_, ?_, ?_⟩
  · simp [run_query, List.length_take]
  · have hs := List.sorted_mergeSort result_le_trans result_le_total
      (with_payments db (inner_joined db))
    have hP : ((with_payments db (inner_joined db)).mergeSort result_le).Pairwise result_order := by
      apply hs.imp
      intro a b hab
      exact (result_le_iff a b).mp hab
    exact List.Pairwise.sublist (List.take_sublist 50 _) hP
  · intro r hr
    have hr1 : r ∈ (with_payments db (inner_joined db)).mergeSort result_le :=
      (List.take_sublist 50 _).subset hr
    have hr2 : r ∈ with_payments db (inner_joined db) :=
      (List.mergeSort_perm _ result_le).mem_iff.mp hr1
    rw [with_payments, List.mem_flatMap] at hr2
    obtain ⟨t, ht, hrt⟩ := hr2
    have htj : t ∈ inner_joined db := ht
    rw [inner_joined, List.mem_flatMap] at htj
    obtain ⟨o, ho, htj⟩ := htj
    rw [List.mem_flatMap] at htj
    obtain ⟨u, hu, htj⟩ := htj
    rw [List.mem_flatMap] at htj
    obtain ⟨oi, hoi, htj⟩ := htj
    rw [List.mem_map] at htj
    obtain ⟨pr, hpr, htj⟩ := htj
    obtain ⟨hu1, hu2⟩ := List.mem_filter.mp hu
    obtain ⟨hoi1, hoi2⟩ := List.mem_filter.mp hoi
    obtain ⟨hpr1, hpr2⟩ := List.mem_filter.mp hpr
    subst htj
    dsimp only at hrt
    by_cases hm : (db.payments.filter (fun p => p.order_id == o.order_id)).isEmpty = true
    · rw [if_pos hm] at hrt
      have hre : r = ((o, u, oi, pr), none) := by simpa using hrt
      subst hre
      refine ⟨ho, hu1, by simpa using (eq_of_beq hu2).symm, hoi1, by simpa using eq_of_beq hoi2,
        hpr1, by simpa using eq_of_beq hpr2, ?_⟩
      simp only []
      intro p hp
      have := List.filter_eq_nil_iff.mp (List.isEmpty_iff.mp hm) p hp
      simpa using this
    · rw [if_neg hm] at hrt
      rw [List.mem_map] at hrt
      obtain ⟨p, hpmem, hre⟩ := hrt
      obtain ⟨hp1, hp2⟩ := List.mem_filter.mp hpmem
      subst hre
      refine ⟨ho, hu1, by simpa using (eq_of_beq hu2).symm, hoi1, by simpa using eq_of_beq hoi2,
        hpr1, by simpa using eq_of_beq hpr2, ?_⟩
      exact ⟨hp1, by simpa using eq_of_beq hp2⟩


/-- C8 witness: the query over a one-order database without payments
returns at most 50 rows. -/
theorem c8_query_bounded_sorted_joined_witness :
    (run_query ⟨[⟨1, "ann".data, "a@x".data, "c".data, "s".data⟩],
      [⟨7, 1, "2024-01-02".data, "10".data, "paid".data⟩],
      [⟨3, 7, 4, "1".data, "10".data⟩],
      [⟨4, "mug".data, "kitchen".data⟩], []⟩).length ≤ 50 :=
  (c8_query_bounded_sorted_joined ⟨[⟨1, "ann".data, "a@x".data, "c".data, "s".data⟩],
      [⟨7, 1, "2024-01-02".data, "10".data, "paid".data⟩],
      [⟨3, 7, 4, "1".data, "10".data⟩],
      [⟨4, "mug".data, "kitchen".data⟩], []⟩).1

end Analytics

namespace Ingest

/-- A row as bound to the INSERT placeholders: one value per header
column, in header order (`data_to_insert` entry, src/ingest_data.py:163-165). -/
abbrev InsRow := List (Option Val)

/-- The tables of the SQLite database file: table name to stored rows,
in creation order (the order `sqlite_master` lists them). -/
abbrev Tables := List (PyStr × List InsRow)

/-- A statement the loader executes against the database. -/
inductive TableOp where
  | dropT : PyStr → TableOp
  | createT : PyStr → TableOp
  | insertT : PyStr → List InsRow → TableOp

/-- Effect of one statement on the table state: `DROP TABLE IF EXISTS`
removes the named table; `CREATE TABLE IF NOT EXISTS` appends an empty
table when the name is absent; the batch INSERT appends its rows to the
named table. -/
def applyOp (S : Tables) : TableOp → Tables
  | .dropT n => S.filter (fun t => !(t.1 == n))
  | .createT n => if S.any (fun t => t.1 == n) then S else S ++ [(n, [])]
  | .insertT n rows => S.map (fun t => if t.1 == n then (t.1, t.2 ++ rows) else t)

/-- Effect of a statement sequence. -/
def applyOps (S : Tables) (ops : List TableOp) : Tables :=
  ops.foldl applyOp S

/-- The sqlite3 connection: the committed database plus, while a
transaction is open, the transaction's working state. -/
structure Conn where
  committed : Tables
  txn : Option Tables

/-- The state the connection currently sees. -/
def Conn.current (c : Conn) : Tables := c.txn.getD c.committed

/-- Execute a DDL statement (DROP/CREATE): inside the open transaction
when one is open, in autocommit mode otherwise (Python 3.6+ sqlite3
semantics: DDL neither opens a transaction nor commits one). -/
def execDDL (c : Conn) (op : TableOp) : Conn :=
  match c.txn with
  | some t => { c with txn := some (applyOp t op) }
  | none => { c with committed := applyOp c.committed op }

/-- Execute a DML statement (INSERT): a transaction is implicitly opened
first when none is open. -/
def execDML (c : Conn) (op : TableOp) : Conn :=
  match c.txn with
  | some t => { c with txn := some (applyOp t op) }
  | none => { c with txn := some (applyOp c.committed op) }

/-- `conn.rollback()`: discard every change made since the transaction
began. -/
def Conn.rollback (c : Conn) : Conn := { c with txn := none }

/-- `conn.commit()`: publish the pending changes. -/
def Conn.commit (c : Conn) : Conn := { committed := c.current, txn := none }

/-- How processing one CSV file ends: successfully; with an exception
raised after the DROP executed but before the CREATE executed (e.g. the
file failed to parse); or with an exception during insertion after `j`
row-inserts of the batch executed (e.g. a constraint violation or a
missing key while building `data_to_insert`, where `j = 0`). -/
inductive Outcome where
  | ok
  | failBeforeCreate
  | failDuringInsert (j : Nat)

/-- One input CSV file: its table name (file stem), header, data rows as
`DictReader` mappings, and how processing it ends.  The outcome is a
property of the file's contents, so it is the same on every run. -/
structure FileSpec where
  name : PyStr
  headers : List PyStr
  dictRows : List DictRow
  outcome : Outcome

/-- The rows the loader binds for insertion, reordered by header. -/
def FileSpec.insRows (f : FileSpec) : List InsRow :=
  f.dictRows.map (row_values f.headers)

/-- One iteration of the file loop (src/ingest_data.py:136-177): DROP,
CREATE, batch INSERT (skipped when the file has no data rows); on an
exception, `conn.rollback()` and continue. -/
def processFile (c : Conn) (f : FileSpec) : Conn :=
  let c1 := execDDL c (.dropT f.name)
  match f.outcome with
  | .failBeforeCreate => c1.rollback
  | .failDuringInsert j =>
      (execDML (execDDL c1 (.createT f.name)) (.insertT f.name (f.insRows.take j))).rollback
  | .ok =>
      let c2 := execDDL c1 (.createT f.name)
      if f.dictRows.isEmpty then c2
      else execDML c2 (.insertT f.name f.insRows)

/-- The loader's database effect (src/ingest_data.py:136-197): process
every file in order, then `conn.commit()`; the summary then reads the
committed state. -/
def loader_run (files : List FileSpec) (S : Tables) : Tables :=
  ((files.foldl processFile { committed := S, txn := none }).commit).committed

/-- The statements processing one file executes, in order. -/
def fileOps (f : FileSpec) : List TableOp :=
  match f.outcome with
  | .failBeforeCreate => [.dropT f.name]
  | .failDuringInsert j =>
      [.dropT f.name, .createT f.name, .insertT f.name (f.insRows.take j)]
  | .ok =>
      if f.dictRows.isEmpty then [.dropT f.name, .createT f.name]
      else [.dropT f.name, .createT f.name, .insertT f.name f.insRows]

/-- Mirror of `processFile` at statement level: the pair of the
statement list already committed (autocommit DDL) and, when a
transaction is open, its pending statement list. -/
def fileStep (st : List TableOp × Option (List TableOp)) (f : FileSpec) :
    List TableOp × Option (List TableOp) :=
  match st.2 with
  | some p =>
      match f.outcome with
      | .ok => (st.1, some (p ++ fileOps f))
      | _ => (st.1, none)
  | none =>
      match f.outcome with
      | .failBeforeCreate => (st.1 ++ [.dropT f.name], none)
      | .failDuringInsert _ => (st.1 ++ [.dropT f.name, .createT f.name], none)
      | .ok =>
          if f.dictRows.isEmpty then (st.1 ++ [.dropT f.name, .createT f.name], none)
          else (st.1 ++ [.dropT f.name, .createT f.name], some [.insertT f.name f.insRows])

/-- The statements of a whole run that reach the committed database:
the autocommitted ones plus the pending ones published by the final
commit. -/
def runOps (files : List FileSpec) : List TableOp :=
  (files.foldl fileStep ([], none)).1 ++ ((files.foldl fileStep ([], none)).2.getD [])

/-- The row count of table `n` (the first entry so named), `none` when
the table is absent. -/
def countOf : Tables → PyStr → Option Nat
  | [], _ => none
  | t :: rest, n => if t.1 == n then some t.2.length else countOf rest n

/-- Does this statement address table `n`? -/
def touches (op : TableOp) (n : PyStr) : Bool :=
  match op with
  | .dropT m => m == n
  | .createT m => m == n
  | .insertT m _ => m == n

/-- Effect of one statement on the addressed table's row count. -/
def opCount (op : TableOp) (x : Option Nat) : Option Nat :=
  match op with
  | .dropT _ => none
  | .createT _ => some (x.getD 0)
  | .insertT _ rows => x.map (fun k => k + rows.length)

/-- The statements of a list that address table `n`. -/
def opsOnName (n : PyStr) (l : List TableOp) : List TableOp :=
  l.filter (fun op => touches op n)

/-- A statement list that is empty or begins by dropping table `n`. -/
def DropFirst (n : PyStr) (l : List TableOp) : Prop :=
  l = [] ∨ ∃ rest, l = TableOp.dropT n :: rest

end Ingest

namespace Ingest

theorem countOf_any (S : Tables) (n : PyStr) :
    S.any (fun t => t.1 == n) = (countOf S n).isSome := by
  induction S with
  | nil => rfl
  | cons t rest ih =>
    by_cases htn : (t.1 == n) = true
    · simp [countOf, htn]
    · simp only [List.any_cons, countOf]
      rw [if_neg htn]
      simp [htn, ih]

theorem countOf_append (S T : Tables) (n : PyStr) :
    countOf (S ++ T) n = ((countOf S n).orElse (fun _ => countOf T n)) := by
  induction S with
  | nil => simp [countOf]
  | cons t rest ih =>
    by_cases htn : (t.1 == n) = true
    · simp [countOf, htn]
    · simp only [List.cons_append, countOf]
      rw [if_neg htn, if_neg htn]
      exact ih

theorem beq_of_eq_keys {t1 m n : PyStr} (h1 : (t1 == n) = true) (h2 : (t1 == m) = false) :
    (m == n) = false := by
  have e1 : t1 = n := eq_of_beq h1
  subst e1
  by_cases hmn : m = t1
  · subst hmn
    simp at h2
  · exact beq_eq_false_iff_ne.mpr hmn

theorem countOf_filter_drop (S : Tables) (m n : PyStr) :
    countOf (S.filter (fun t => !(t.1 == m))) n =
      if m == n then none else countOf S n := by
  induction S with
  | nil => simp [countOf]
  | cons t rest ih =>
    by_cases htm : (t.1 == m) = true
    · rw [List.filter_cons_of_neg (by simp [htm])]
      rw [ih]
      by_cases hmn : (m == n) = true
      · rw [if_pos hmn, if_pos hmn]
      · rw [if_neg hmn, if_neg hmn]
        have htn : (t.1 == n) = false := by
          have h1 : t.1 = m := eq_of_beq htm
          subst h1
          simpa using hmn
        simp [countOf, htn]
    · rw [List.filter_cons_of_pos (by simp [htm])]
      by_cases htn : (t.1 == n) = true
      · have htm' : (t.1 == m) = false := by simpa using htm
        have hmn : (m == n) = false := beq_of_eq_keys htn htm'
        rw [hmn]
        simp [countOf, htn]
      · have htn' : (t.1 == n) = false := by simpa using htn
        simp only [countOf]
        rw [if_neg htn, if_neg htn]
        exact ih

theorem countOf_map_insert (S : Tables) (m n : PyStr) (rows : List InsRow) :
    countOf (S.map (fun t => if t.1 == m then (t.1, t.2 ++ rows) else t)) n =
      if m == n then (countOf S n).map (fun k => k + rows.length)
      else countOf S n := by
  induction S with
  | nil => simp [countOf]
  | cons t rest ih =>
    simp only [List.map_cons]
    by_cases htm : (t.1 == m) = true
    · rw [if_pos htm]
      by_cases htn : (t.1 == n) = true
      · have hmn : (m == n) = true := by
          have e1 : t.1 = m := eq_of_beq htm
          have e2 : t.1 = n := eq_of_beq htn
          subst e1
          exact beq_iff_eq.mpr e2
        rw [hmn]
        simp [countOf, htn]
      · have htn' : (t.1 == n) = false := by simpa using htn
        simp only [countOf]
        rw [if_neg (by simpa using htn), if_neg htn]
        exact ih
    · rw [if_neg htm]
      by_cases htn : (t.1 == n) = true
      · have htm' : (t.1 == m) = false := by simpa using htm
        have hmn : (m == n) = false := beq_of_eq_keys htn htm'
        rw [hmn]
        simp [countOf, htn]
      · simp only [countOf]
        rw [if_neg htn, if_neg htn]
        exact ih

theorem countOf_applyOp (S : Tables) (op : TableOp) (n : PyStr) :
    countOf (applyOp S op) n =
      if touches op n then opCount op (countOf S n) else countOf S n := by
  cases op with
  | dropT m =>
    simp only [applyOp, touches, opCount]
    rw [countOf_filter_drop]
  | createT m =>
    simp only [applyOp, touches, opCount]
    by_cases hany : S.any (fun t => t.1 == m) = true
    · rw [if_pos hany]
      by_cases hmn : (m == n) = true
      · rw [if_pos hmn]
        have e1 : m = n := eq_of_beq hmn
        subst e1
        rw [countOf_any] at hany
        cases hc : countOf S m with
        | none => rw [hc] at hany; simp at hany
        | some k => simp
      · rw [if_neg hmn]
    · rw [if_neg hany]
      rw [countOf_append]
      by_cases hmn : (m == n) = true
      · rw [if_pos hmn]
        have e1 : m = n := eq_of_beq hmn
        subst e1
        rw [countOf_any] at hany
        cases hc : countOf S m with
        | none => simp [countOf, Option.orElse]
        | some k => rw [hc] at hany; simp at hany
      · rw [if_neg hmn]
        have hmn' : (m == n) = false := by simpa using hmn
        cases hc : countOf S n with
        | none => simp [countOf, hmn', Option.orElse]
        | some k => simp [Option.orElse]
  | insertT m rows =>
    simp only [applyOp, touches, opCount]
    rw [countOf_map_insert]

theorem countOf_applyOps (ops : List TableOp) (S : Tables) (n : PyStr) :
    countOf (applyOps S ops) n =
      (ops.filter (fun op => touches op n)).foldl (fun x op => opCount op x) (countOf S n) := by
  induction ops generalizing S with
  | nil => rfl
  | cons op rest ih =>
    simp only [applyOps, List.foldl_cons]
    by_cases hop : touches op n = true
    · rw [@List.filter_cons_of_pos _ (fun op => touches op n) op rest hop]
      simp only [List.foldl_cons]
      have := ih (applyOp S op)
      simp only [applyOps] at this
      rw [this, countOf_applyOp, if_pos hop]
    · rw [@List.filter_cons_of_neg _ (fun op => touches op n) op rest hop]
      have := ih (applyOp S op)
      simp only [applyOps] at this
      rw [this, countOf_applyOp, if_neg hop]


theorem applyOps_append (S : Tables) (a b : List TableOp) :
    applyOps S (a ++ b) = applyOps (applyOps S a) b := by
  simp [applyOps, List.foldl_append]

def corresponds (S : Tables) (c : Conn) (st : List TableOp × Option (List TableOp)) : Prop :=
  c.committed = applyOps S st.1 ∧
  c.txn = st.2.map (fun p => applyOps (applyOps S st.1) p)

theorem processFile_corresponds (S : Tables) (c : Conn)
    (st : List TableOp × Option (List TableOp)) (f : FileSpec)
    (h : corresponds S c st) :
    corresponds S (processFile c f) (fileStep st f) := by
  obtain ⟨h1, h2⟩ := h
  rcases hst : st.2 with _ | p
  · rw [hst] at h2
    simp only [Option.map_none'] at h2
    cases hout : f.outcome with
    | failBeforeCreate =>
      refine ⟨?_, ?_⟩ <;>
        simp [processFile, fileStep, hst, hout, execDDL, h1, h2, Conn.rollback,
          applyOps_append, applyOps]
    | failDuringInsert j =>
      refine ⟨?_, ?_⟩ <;>
        simp [processFile, fileStep, hst, hout, execDDL, execDML, h1, h2, Conn.rollback,
          applyOps_append, applyOps]
    | ok =>
      by_cases hemp : f.dictRows.isEmpty
      · refine ⟨?_, ?_⟩ <;>
          simp [processFile, fileStep, hst, hout, hemp, execDDL, h1, h2,
            applyOps_append, applyOps]
      · refine ⟨?_, ?_⟩ <;>
          simp [processFile, fileStep, hst, hout, hemp, execDDL, execDML, h1, h2,
            applyOps_append, applyOps]
  · rw [hst] at h2
    simp only [Option.map_some'] at h2
    cases hout : f.outcome with
    | failBeforeCreate =>
      refine ⟨?_, ?_⟩ <;>
        simp [processFile, fileStep, hst, hout, execDDL, h1, h2, Conn.rollback]
    | failDuringInsert j =>
      refine ⟨?_, ?_⟩ <;>
        simp [processFile, fileStep, hst, hout, execDDL, execDML, h1, h2, Conn.rollback]
    | ok =>
      by_cases hemp : f.dictRows.isEmpty
      · refine ⟨?_, ?_⟩ <;>
          simp [processFile, fileStep, fileOps, hst, hout, hemp, execDDL, h1, h2,
            applyOps_append, applyOps]
      · refine ⟨?_, ?_⟩ <;>
          simp [processFile, fileStep, fileOps, hst, hout, hemp, execDDL, execDML, h1, h2,
            applyOps_append, applyOps]

theorem loader_run_eq_applyOps (files : List FileSpec) (S : Tables) :
    loader_run files S = applyOps S (runOps files) := by
  have main : ∀ (fs : List FileSpec) (c : Conn) st, corresponds S c st →
      corresponds S (fs.foldl processFile c) (fs.foldl fileStep st) := by
    intro fs
    induction fs with
    | nil => intro c st h; exact h
    | cons f fs ih =>
      intro c st h
      exact ih _ _ (processFile_corresponds S c st f h)
  have h0 : corresponds S { committed := S, txn := none } ([], none) := by
    exact ⟨rfl, rfl⟩
  obtain ⟨h1, h2⟩ := main files { committed := S, txn := none } ([], none) h0
  rw [loader_run, runOps]
  cases hst : (files.foldl fileStep ([], none)).2 with
  | none =>
    rw [hst] at h2
    simp only [Option.map_none'] at h2
    simp [Conn.commit, Conn.current, h1, h2, hst]
  | some p =>
    rw [hst] at h2
    simp only [Option.map_some'] at h2
    simp [Conn.commit, Conn.current, h1, h2, hst, applyOps_append]



theorem opsOnName_append (n : PyStr) (a b : List TableOp) :
    opsOnName n (a ++ b) = opsOnName n a ++ opsOnName n b :=
  List.filter_append _ _

theorem DropFirst.append {n : PyStr} {x y : List TableOp}
    (h : DropFirst n x) (h2 : x = [] → DropFirst n y) : DropFirst n (x ++ y) := by
  rcases h with rfl | ⟨rest, rfl⟩
  · simpa using h2 rfl
  · exact Or.inr ⟨rest ++ y, by simp⟩

theorem opsOnName_fileOps_other {f : FileSpec} {n : PyStr} (h : (f.name == n) = false) :
    opsOnName n (fileOps f) = [] := by
  cases hout : f.outcome with
  | failBeforeCreate => simp [fileOps, opsOnName, touches, hout, h]
  | failDuringInsert j => simp [fileOps, opsOnName, touches, hout, h]
  | ok =>
    by_cases hemp : f.dictRows.isEmpty <;>
      simp [fileOps, opsOnName, touches, hout, hemp, h]

theorem opsOnName_fileOps_self (f : FileSpec) :
    ∃ rest, opsOnName f.name (fileOps f) = TableOp.dropT f.name :: rest := by
  cases hout : f.outcome with
  | failBeforeCreate =>
    exact ⟨[], by simp [fileOps, opsOnName, touches, hout]⟩
  | failDuringInsert j =>
    exact ⟨[TableOp.createT f.name, TableOp.insertT f.name (f.insRows.take j)],
      by simp [fileOps, opsOnName, touches, hout]⟩
  | ok =>
    by_cases hemp : f.dictRows.isEmpty
    · exact ⟨[TableOp.createT f.name], by simp [fileOps, opsOnName, touches, hout, hemp]⟩
    · exact ⟨[TableOp.createT f.name, TableOp.insertT f.name f.insRows],
        by simp [fileOps, opsOnName, touches, hout, hemp]⟩




theorem fileStep_keeps_inv (A : List TableOp) (po : Option (List TableOp)) (f : FileSpec)
    (hf1 : opsOnName f.name A = [])
    (hf2 : opsOnName f.name (po.getD []) = [])
    (hinv : ∀ n, DropFirst n (opsOnName n A) ∧
      DropFirst n (opsOnName n (A ++ po.getD []))) :
    (∀ n, DropFirst n (opsOnName n (fileStep (A, po) f).1) ∧
      DropFirst n (opsOnName n ((fileStep (A, po) f).1 ++ (fileStep (A, po) f).2.getD []))) ∧
    (∀ m : PyStr, (f.name == m) = false →
      opsOnName m A = [] → opsOnName m (po.getD []) = [] →
      opsOnName m (fileStep (A, po) f).1 = [] ∧
      opsOnName m ((fileStep (A, po) f).2.getD []) = []) := by
  rcases po with _ | p
  · simp only [Option.getD_none] at hf2
    have step : ∀ (newOps : List TableOp) (pend : Option (List TableOp)),
        fileStep (A, none) f = (A ++ newOps, pend) →
        (∃ r, opsOnName f.name newOps = TableOp.dropT f.name :: r) →
        (∀ m : PyStr, (f.name == m) = false → opsOnName m newOps = []) →
        (∀ m : PyStr, (f.name == m) = false → opsOnName m (pend.getD []) = []) →
        (∀ n, DropFirst n (opsOnName n (fileStep (A, none) f).1) ∧
          DropFirst n (opsOnName n
            ((fileStep (A, none) f).1 ++ (fileStep (A, none) f).2.getD []))) ∧
        (∀ m : PyStr, (f.name == m) = false →
          opsOnName m A = [] → opsOnName m ((none : Option (List TableOp)).getD []) = [] →
          opsOnName m (fileStep (A, none) f).1 = [] ∧
          opsOnName m ((fileStep (A, none) f).2.getD []) = []) := by
      intro newOps pend hstep hself hother hpendother
      rw [hstep]
      constructor
      · intro n
        by_cases hfn : (f.name == n) = true
        · have hn : f.name = n := eq_of_beq hfn
          subst hn
          obtain ⟨r, hr⟩ := hself
          constructor
          · rw [opsOnName_append, hf1, hr]
            exact Or.inr ⟨r, rfl⟩
          · rw [List.append_assoc, opsOnName_append, hf1, opsOnName_append, hr]
            exact Or.inr ⟨r ++ opsOnName f.name (pend.getD []), rfl⟩
        · have hfn' : (f.name == n) = false := by simpa using hfn
          constructor
          · rw [opsOnName_append, hother n hfn', List.append_nil]
            exact (hinv n).1
          · rw [List.append_assoc, opsOnName_append, opsOnName_append,
              hother n hfn', hpendother n hfn', List.append_nil, List.append_nil]
            exact (hinv n).1
      · intro m hm hm1 hm2
        constructor
        · rw [opsOnName_append, hm1, hother m hm]
          rfl
        · exact hpendother m hm
    cases hout : f.outcome with
    | failBeforeCreate =>
      refine step [TableOp.dropT f.name] none (by simp [fileStep, hout]) ?_ ?_ ?_
      · exact ⟨[], by simp [opsOnName, touches]⟩
      · intro m hm; simp [opsOnName, touches, hm]
      · intro m hm; simp [opsOnName]
    | failDuringInsert j =>
      refine step [TableOp.dropT f.name, TableOp.createT f.name] none
        (by simp [fileStep, hout]) ?_ ?_ ?_
      · exact ⟨[TableOp.createT f.name], by simp [opsOnName, touches]⟩
      · intro m hm; simp [opsOnName, touches, hm]
      · intro m hm; simp [opsOnName]
    | ok =>
      by_cases hemp : f.dictRows.isEmpty
      · refine step [TableOp.dropT f.name, TableOp.createT f.name] none
          (by simp [fileStep, hout, hemp]) ?_ ?_ ?_
        · exact ⟨[TableOp.createT f.name], by simp [opsOnName, touches]⟩
        · intro m hm; simp [opsOnName, touches, hm]
        · intro m hm; simp [opsOnName]
      · refine step [TableOp.dropT f.name, TableOp.createT f.name]
          (some [TableOp.insertT f.name f.insRows])
          (by simp [fileStep, hout, hemp]) ?_ ?_ ?_
        · exact ⟨[TableOp.createT f.name], by simp [opsOnName, touches]⟩
        · intro m hm; simp [opsOnName, touches, hm]
        · intro m hm; simp [opsOnName, touches, hm]
  · simp only [Option.getD_some] at hf2
    cases hout : f.outcome with
    | ok =>
      have hstep : fileStep (A, some p) f = (A, some (p ++ fileOps f)) := by
        simp [fileStep, hout]
      rw [hstep]
      constructor
      · intro n
        refine ⟨(hinv n).1, ?_⟩
        by_cases hfn : (f.name == n) = true
        · have hn : f.name = n := eq_of_beq hfn
          subst hn
          simp only [Option.getD_some]
          rw [← List.append_assoc, opsOnName_append, opsOnName_append, hf1, hf2]
          obtain ⟨r, hr⟩ := opsOnName_fileOps_self f
          rw [hr]
          exact Or.inr ⟨r, rfl⟩
        · have hfn' : (f.name == n) = false := by simpa using hfn
          simp only [Option.getD_some]
          rw [← List.append_assoc, opsOnName_append, opsOnName_fileOps_other hfn',
            List.append_nil]
          have h2 := (hinv n).2
          simpa using h2
      · intro m hm hm1 hm2
        simp only [Option.getD_some] at hm2
        refine ⟨hm1, ?_⟩
        simp only [Option.getD_some]
        rw [opsOnName_append, hm2, opsOnName_fileOps_other hm]
        rfl
    | failBeforeCreate =>
      have hstep : fileStep (A, some p) f = (A, none) := by
        simp [fileStep, hout]
      rw [hstep]
      refine ⟨fun n => ⟨(hinv n).1, ?_⟩, fun m hm hm1 hm2 => ⟨hm1, by simp [opsOnName]⟩⟩
      simp only [Option.getD_none, List.append_nil]
      exact (hinv n).1
    | failDuringInsert j =>
      have hstep : fileStep (A, some p) f = (A, none) := by
        simp [fileStep, hout]
      rw [hstep]
      refine ⟨fun n => ⟨(hinv n).1, ?_⟩, fun m hm hm1 hm2 => ⟨hm1, by simp [opsOnName]⟩⟩
      simp only [Option.getD_none, List.append_nil]
      exact (hinv n).1



theorem foldl_fileStep_dropFirst :
    ∀ (fs : List FileSpec) (A : List TableOp) (po : Option (List TableOp)),
      (∀ f ∈ fs, opsOnName f.name A = [] ∧ opsOnName f.name (po.getD []) = []) →
      (∀ n, DropFirst n (opsOnName n A) ∧ DropFirst n (opsOnName n (A ++ po.getD []))) →
      (fs.map FileSpec.name).Nodup →
      ∀ n, DropFirst n (opsOnName n
        ((fs.foldl fileStep (A, po)).1 ++ (fs.foldl fileStep (A, po)).2.getD [])) := by
  intro fs
  induction fs with
  | nil =>
    intro A po _ hinv _ n
    exact (hinv n).2
  | cons f fs ih =>
    intro A po hnames hinv hnd n
    have hf := hnames f (List.mem_cons_self f fs)
    have hmain := fileStep_keeps_inv A po f hf.1 hf.2 hinv
    rw [List.map_cons, List.nodup_cons] at hnd
    have hstep2 : ∀ g ∈ fs, (f.name == g.name) = false := by
      intro g hg
      have : f.name ≠ g.name := by
        intro he
        exact hnd.1 (he ▸ List.mem_map_of_mem FileSpec.name hg)
      simpa using this
    rw [List.foldl_cons]
    rcases hfs : fileStep (A, po) f with ⟨A', po'⟩
    have h1 : ∀ g ∈ fs, opsOnName g.name A' = [] ∧ opsOnName g.name (po'.getD []) = [] := by
      intro g hg
      have hgn := hnames g (List.mem_cons_of_mem f hg)
      have := hmain.2 g.name (hstep2 g hg) hgn.1 hgn.2
      rw [hfs] at this
      exact this
    have h2 : ∀ m, DropFirst m (opsOnName m A') ∧
        DropFirst m (opsOnName m (A' ++ po'.getD [])) := by
      intro m
      have := hmain.1 m
      rw [hfs] at this
      exact this
    exact ih A' po' h1 h2 hnd.2 n

theorem runOps_dropFirst (files : List FileSpec)
    (hnd : (files.map FileSpec.name).Nodup) (n : PyStr) :
    DropFirst n (opsOnName n (runOps files)) := by
  have h0 : ∀ f ∈ files, opsOnName f.name ([] : List TableOp) = [] ∧
      opsOnName f.name ((none : Option (List TableOp)).getD []) = [] := by
    intro f _
    exact ⟨rfl, rfl⟩
  have h1 : ∀ m, DropFirst m (opsOnName m ([] : List TableOp)) ∧
      DropFirst m (opsOnName m (([] : List TableOp) ++
        (none : Option (List TableOp)).getD [])) := by
    intro m
    exact ⟨Or.inl rfl, Or.inl rfl⟩
  exact foldl_fileStep_dropFirst files [] none h0 h1 hnd n

/-- C4: running the loader twice in succession on the same input
directory (distinct file stems, per-file outcomes fixed by the files'
contents) leaves every table's row count identical: each file's
statements begin by dropping its table, so the statements that reach
the committed database pin each touched table's final count
independently of the prior state. -/
theorem c4_loader_rerun_same_counts :
    ∀ (files : List FileSpec) (S : Tables),
      (files.map FileSpec.name).Nodup →
      ∀ n, countOf (loader_run files (loader_run files S)) n =
        countOf (loader_run files S) n := by
  intro files S hnd n
  have hdf := runOps_dropFirst files hnd n
  rw [loader_run_eq_applyOps, loader_run_eq_applyOps, countOf_applyOps]
  rcases hdf with hdf | ⟨rest, hdf⟩
  · simp only [opsOnName] at hdf
    rw [hdf, List.foldl_nil, countOf_applyOps, hdf, List.foldl_nil]
  · simp only [opsOnName] at hdf
    rw [countOf_applyOps, hdf, List.foldl_cons, List.foldl_cons]
    rfl


end Ingest

namespace Ingest

/-- Example file `a.csv`: table `a`, two data rows, loads successfully. -/
def fileA : FileSpec :=
  { name := "a".data, headers := ["x".data],
    dictRows := [[("x".data, some "1".data)], [("x".data, some "2".data)]],
    outcome := .ok }

/-- Example file `b.csv`: raises during insertion, no row inserted
(e.g. a constraint violation on its first row). -/
def fileB : FileSpec :=
  { name := "b".data, headers := ["x".data],
    dictRows := [[("x".data, some "3".data)]],
    outcome := .failDuringInsert 0 }

/-- Example file `c.csv`: table `c`, one data row, loads successfully. -/
def fileC : FileSpec :=
  { name := "c".data, headers := ["x".data],
    dictRows := [[("x".data, some "4".data)]],
    outcome := .ok }

/-- C1: on a fresh database, with file `a` loading two rows, file `b`
failing, and file `c` loading one row, `conn.rollback()` at `b`'s
failure discards the still-uncommitted inserts of file `a`: the final
summary shows table `a` with 0 rows (not its 2), table `b` absent, and
table `c` (the next file, still attempted) with its full 1 row. -/
theorem c1_rollback_discards_prior_rows :
    countOf (loader_run [fileA, fileB, fileC] []) "a".data = some 0 ∧
    countOf (loader_run [fileA, fileB, fileC] []) "b".data = none ∧
    countOf (loader_run [fileA, fileB, fileC] []) "c".data = some 1 ∧
    fileA.insRows.length = 2 := by decide

/-- C4 witness: rerunning the loader on the three example files (the
second of which fails) leaves table `a`'s row count unchanged. -/
theorem c4_loader_rerun_same_counts_witness :
    countOf (loader_run [fileA, fileB, fileC]
        (loader_run [fileA, fileB, fileC] [])) "a".data =
      countOf (loader_run [fileA, fileB, fileC] []) "a".data :=
  c4_loader_rerun_same_counts [fileA, fileB, fileC] [] (by decide) "a".data

/-- Exception classes relevant to the entry points. -/
inductive PyExc where
  | sqliteError
  | unboundLocalError
deriving DecidableEq

/-- Observable outcome of one entry-point execution. -/
structure EntryResult where
  propagated : Option PyExc
  connOpened : Bool
  connClosed : Bool
deriving DecidableEq

/-- The `finally` block `if conn: conn.close()` of both entry points
(src/ingest_data.py:205-209, src/analytics_queries.py:133-136): when
`conn` was never assigned because `sqlite3.connect` raised, the name
lookup itself raises `UnboundLocalError`, which propagates out of the
function; when `conn` is bound, the connection is closed and nothing is
raised.  Returns (exception raised by the block, whether close ran). -/
def finallyClose : Option Unit → Option PyExc × Bool
  | none => (some .unboundLocalError, false)
  | some _ => (none, true)

/-- Translation of `load_csv_to_sqlite` (src/ingest_data.py:98-209) at
entry-point granularity: early return when the data directory is
missing or it holds no CSV file (no connection opened); otherwise
`sqlite3.connect` either raises — `conn` stays unbound, the `except`
clause logs, and the `finally` block raises — or succeeds, after which
the file loop, commit and summary raise nothing out of the `try`
(every exception is caught by the inner or outer `except` clauses) and
the `finally` block closes the connection. -/
def load_csv_to_sqlite (dataDirExists : Bool) (files : List FileSpec)
    (connect : Except PyExc Unit) (S : Tables) : EntryResult × Tables :=
  if !dataDirExists then
    ({ propagated := none, connOpened := false, connClosed := false }, S)
  else if files.isEmpty then
    ({ propagated := none, connOpened := false, connClosed := false }, S)
  else
    match connect with
    | .error _ =>
        ({ propagated := (finallyClose none).1, connOpened := false,
           connClosed := (finallyClose none).2 }, S)
    | .ok _ =>
        ({ propagated := (finallyClose (some ())).1, connOpened := true,
           connClosed := (finallyClose (some ())).2 }, loader_run files S)

end Ingest

namespace Analytics

/-- Translation of `run_queries` (src/analytics_queries.py:81-136) at
entry-point granularity: early return when the database file is
missing; otherwise as for the loader — a failing `sqlite3.connect`
leaves `conn` unbound and the `finally` block raises
`UnboundLocalError`; on success the fixed query runs (its own errors
are caught inside `execute_query`) and the connection is closed. -/
def run_queries (dbExists : Bool) (connect : Except Ingest.PyExc Unit)
    (db : QueryDB) : Ingest.EntryResult × Option (List ResultRow) :=
  if !dbExists then
    ({ propagated := none, connOpened := false, connClosed := false }, none)
  else
    match connect with
    | .error _ =>
        ({ propagated := (Ingest.finallyClose none).1, connOpened := false,
           connClosed := (Ingest.finallyClose none).2 }, none)
    | .ok _ =>
        ({ propagated := (Ingest.finallyClose (some ())).1, connOpened := true,
           connClosed := (Ingest.finallyClose (some ())).2 }, some (run_query db))

end Analytics

namespace Ingest

/-- C9: when `sqlite3.connect` raises, both entry points reach
`if conn:` in their `finally` blocks with `conn` unbound, so an
`UnboundLocalError` escapes the entry point and no close occurs —
contradicting the claim that no exception propagates; when connecting
succeeds, the opened connection is closed and nothing propagates. -/
theorem c9_unbound_conn_in_finally :
    (load_csv_to_sqlite true [fileA] (.error .sqliteError) []).1.propagated =
      some .unboundLocalError ∧
    (load_csv_to_sqlite true [fileA] (.error .sqliteError) []).1.connClosed = false ∧
    (Analytics.run_queries true (.error .sqliteError)
        ⟨[], [], [], [], []⟩).1.propagated = some .unboundLocalError ∧
    (load_csv_to_sqlite true [fileA] (.ok ()) []).1.propagated = none ∧
    (load_csv_to_sqlite true [fileA] (.ok ()) []).1.connOpened = true ∧
    (load_csv_to_sqlite true [fileA] (.ok ()) []).1.connClosed = true := by
  refine ⟨rfl, rfl, rfl, rfl, rfl, rfl⟩

end Ingest
